import Mathlib

/-!
Shallow embedding of the presence-and-broadcast session manager in
server.js (an Express + Socket.IO chat hub).

The embedded component consists of:
* the validation utilities sanitize / validateName / validateText
  (lines 36-48 of the server source);
* the presence registry, a JavaScript Map from socket id to the joined
  user record (line 32);
* the per-connection event handlers for join, chat_message, typing and
  disconnect (lines 56-149), together with broadcastOnline (lines 51-53).

Connections are identified by natural numbers (socket ids).  Untrusted
payloads arriving from a client are modelled by the type JVal of
JavaScript values as far as the handlers inspect them.  Every outbound
emission is recorded as a pair of a destination (to one socket, to all
but one socket, or to all sockets - mirroring socket.emit,
socket.broadcast.emit and io.emit) and a message.
-/

namespace Mess

/-- A JavaScript value as far as the event handlers inspect one: a string
(as a list of characters), a number, a boolean, null, undefined, or an
object with named fields. -/
inductive JVal where
  | str (s : List Char)
  | num (n : Int)
  | jbool (b : Bool)
  | jnull
  | undefined
  | obj (fields : List (List Char × JVal))

/-- The character class matched by the JavaScript regular expression
class for whitespace (backslash-s): space, tab, line feed, vertical tab,
form feed, carriage return, and the Unicode space separators, line and
paragraph separators, and the byte-order mark. -/
def isWS (c : Char) : Bool :=
  c = ' ' || c = '\t' || c = '\n' || c.val = 11 || c.val = 12 || c = '\r' ||
  c.val = 0xa0 || c.val = 0x1680 || (0x2000 ≤ c.val && c.val ≤ 0x200a) ||
  c.val = 0x2028 || c.val = 0x2029 || c.val = 0x202f || c.val = 0x205f ||
  c.val = 0x3000 || c.val = 0xfeff

/-- The effect of replace(backslash-s+, one space) with the global flag:
every maximal run of whitespace characters is replaced by a single
space. -/
def collapseWS : List Char → List Char
  | [] => []
  | [c] => if isWS c then [' '] else [c]
  | c :: d :: rest =>
    if isWS c && isWS d then collapseWS (d :: rest)
    else (if isWS c then ' ' else c) :: collapseWS (d :: rest)

/-- JavaScript String.prototype.trim: remove leading and trailing
whitespace. -/
def trimL (s : List Char) : List Char :=
  ((s.dropWhile fun c => isWS c).reverse.dropWhile fun c => isWS c).reverse

/-- Lines 36-39: sanitize(str, maxLen) returns the empty string on a
non-string input, and otherwise computes
str.substring(0, maxLen).replace(backslash-s+, one space).trim() -
note the truncation happens BEFORE the whitespace collapse and trim.
The default maxLen is 1000, but every call site passes it explicitly. -/
def sanitize (v : JVal) (maxLen : Nat) : List Char :=
  match v with
  | .str s => trimL (collapseWS (s.take maxLen))
  | _ => []

/-- Lines 41-44: validateName(raw) sanitizes to at most 40 characters and
returns null (here none) when the result is the empty string. -/
def validateName (raw : JVal) : Option (List Char) :=
  if sanitize raw 40 = [] then none else some (sanitize raw 40)

/-- Lines 45-48: validateText(raw) sanitizes to at most 1000 characters
and returns null (here none) when the result is the empty string. -/
def validateText (raw : JVal) : Option (List Char) :=
  if sanitize raw 1000 = [] then none else some (sanitize raw 1000)

/-- The normalization pipeline in the ORDER THE SPEC WORDS IT: collapse
whitespace runs, trim, and only then truncate the result to maxLen
characters.  Defined solely to be compared against sanitize, which is
the order the code uses. -/
def sanitizeSpecOrder (v : JVal) (maxLen : Nat) : List Char :=
  match v with
  | .str s => (trimL (collapseWS s)).take maxLen
  | _ => []

/-- The presence registry (line 32): the JavaScript Map users from socket
id to the joined display name, modelled as an association list whose
operations mirror Map.get, Map.set, Map.delete and Map.size. -/
abbrev Registry := List (Nat × List Char)

/-- Map.get: the value stored under key k, if any. -/
def mapGet (m : Registry) (k : Nat) : Option (List Char) :=
  (m.find? fun p => p.1 == k).map Prod.snd

/-- Map.set: overwrite the entry for k in place when it exists, else
append a new entry (JavaScript Map preserves insertion order). -/
def mapSet (m : Registry) (k : Nat) (v : List Char) : Registry :=
  if m.any fun p => p.1 == k then
    m.map fun p => if p.1 == k then (k, v) else p
  else m ++ [(k, v)]

/-- Map.delete: remove the entry for k, if present. -/
def mapDelete (m : Registry) (k : Nat) : Registry :=
  m.filter fun p => p.1 != k

/-- Map.size. -/
def mapSize (m : Registry) : Nat := m.length

/-- The hub state: just the users registry. -/
structure St where
  users : Registry
  deriving DecidableEq, Repr

/-- Kind tag of a system_message notice. -/
inductive SysKind where
  | join
  | leave
  deriving DecidableEq, Repr

/-- An outbound message, one constructor per emitted event name. -/
inductive Msg where
  | error_message (text : List Char)
  | system_message (kind : SysKind) (text : List Char)
  | joinedAck (name : List Char)
  | online_count (count : Nat)
  | chat_message (now : Nat) (rand : List Char) (author : List Char) (text : List Char)
  | typing (name : List Char) (isTyping : Bool) (sid : Nat)
  deriving DecidableEq, Repr

/-- Where an emission goes: io.emit is toAll, socket.broadcast.emit is
toOthers of the emitting socket, socket.emit is toOne of that socket. -/
inductive Dest where
  | toAll
  | toOthers (sid : Nat)
  | toOne (sid : Nat)
  deriving DecidableEq, Repr

/-- One recorded emission. -/
abbrev Out := Dest × Msg

def errInvalidName : List Char := "Некорректное имя пользователя.".toList

def errJoinFailed : List Char := "Ошибка при входе в чат.".toList

def errJoinFirst : List Char := "Сначала введите имя пользователя.".toList

def errChatFailed : List Char := "Произошла ошибка при отправке сообщения.".toList

/-- The join system notice text (lines 73-76). -/
def joinNotice (name : List Char) : List Char :=
  name ++ (" присоединился(ась) к чату".toList)

/-- The leave system notice text (lines 134-137). -/
def leaveNotice (name : List Char) : List Char :=
  name ++ (" вышел(ла) из чата".toList)

/-- Lines 60-87, the join handler on its non-throwing path: validate the
raw name; on failure emit a to-one error notice and stop; on success
store the user in the registry, notify all other sockets, acknowledge to
the joining socket, and broadcast the refreshed online count
(broadcastOnline, lines 51-53, emits the current registry size to all). -/
def joinH (st : St) (sid : Nat) (rawName : JVal) : St × List Out :=
  match validateName rawName with
  | none => (st, [(.toOne sid, .error_message errInvalidName)])
  | some name =>
    let st' : St := ⟨mapSet st.users sid name⟩
    (st', [(.toOthers sid, .system_message .join (joinNotice name)),
           (.toOne sid, .joinedAck name),
           (.toAll, .online_count (mapSize st'.users))])

/-- The optional-chaining access payload?.text of line 98: reading the
text field of a non-object value, or of an object without that field,
yields undefined and never throws. -/
def getText (payload : JVal) : JVal :=
  match payload with
  | .obj fields => ((fields.find? fun p => p.1 == ("text".toList)).map Prod.snd).getD .undefined
  | _ => .undefined

/-- JavaScript truthiness, as used by the double negation on line 123. -/
def truthy : JVal → Bool
  | .str s => !s.isEmpty
  | .num n => n != 0
  | .jbool b => b
  | .jnull => false
  | .undefined => false
  | .obj _ => true

/-- Lines 90-116, the chat_message handler on its non-throwing path: a
sender with no registry entry gets a to-one error notice; empty text
after validation is silently dropped; otherwise the message, authored
with the registered name, is emitted to all sockets including the
sender.  The fresh message id and timestamp are built from the ambient
clock and random suffix, passed in here as now and rand. -/
def chatH (st : St) (sid : Nat) (payload : JVal) (now : Nat) (rand : List Char) :
    St × List Out :=
  match mapGet st.users sid with
  | none => (st, [(.toOne sid, .error_message errJoinFirst)])
  | some user =>
    match validateText (getText payload) with
    | none => (st, [])
    | some text => (st, [(.toAll, .chat_message now rand user text)])

/-- Lines 119-124, the typing handler: a sender with no registry entry is
ignored silently; otherwise the typing state is relayed to all sockets
including the sender. -/
def typingH (st : St) (sid : Nat) (isTyping : JVal) : St × List Out :=
  match mapGet st.users sid with
  | none => (st, [])
  | some user => (st, [(.toAll, .typing user (truthy isTyping) sid)])

/-- Lines 127-143, the disconnect handler: the registry entry is read and
then deleted unconditionally; when a user record with a truthy name was
present, a leave notice goes to all other sockets and the refreshed
online count to all sockets; otherwise nothing is emitted. -/
def disconnectH (st : St) (sid : Nat) : St × List Out :=
  let user := mapGet st.users sid
  let st' : St := ⟨mapDelete st.users sid⟩
  match user with
  | some name =>
    if name.isEmpty then (st', [])
    else (st', [(.toOthers sid, .system_message .leave (leaveNotice name)),
                (.toAll, .online_count (mapSize st'.users))])
  | none => (st', [])

/-- An inbound event: the kind carries the raw payload, and for a chat
message also the ambient clock value and random id suffix the handler
would read from the environment. -/
inductive EvKind where
  | join (rawName : JVal)
  | chat (payload : JVal) (now : Nat) (rand : List Char)
  | typing (isTyping : JVal)
  | disconnect

structure Ev where
  conn : Nat
  kind : EvKind

/-- Dispatch of one inbound event to its handler. -/
def step (st : St) (e : Ev) : St × List Out :=
  match e.kind with
  | .join raw => joinH st e.conn raw
  | .chat p now rand => chatH st e.conn p now rand
  | .typing t => typingH st e.conn t
  | .disconnect => disconnectH st e.conn

/-- Run a sequence of events from a state, recording after each event the
state it left behind together with the emissions it produced. -/
def runFrom (st : St) : List Ev → List (St × List Out)
  | [] => []
  | e :: es =>
    let r := step st e
    r :: runFrom r.1 es

/-- Run a sequence of events from the initial empty registry. -/
def run (es : List Ev) : List (St × List Out) :=
  runFrom ⟨[]⟩ es

/-- Fault-injection view of the join handler (lines 60-87), restricted
to the SPECIAL CASE of a failure raised at the start of the try block
(the general any-point model is joinHTry below, and joinHF fault
agrees with joinHTry at fault point zero).  The whole body sits inside
try/catch, so the catch clause converts the failure into a logged,
generic, to-one error notice and the handler never lets it escape. -/
def joinHF (st : St) (sid : Nat) (rawName : JVal) (fault : Bool) :
    Except Unit (St × List Out) :=
  if fault then .ok (st, [(.toOne sid, .error_message errJoinFailed)])
  else .ok (joinH st sid rawName)

/-- Fault-injection view of the chat_message handler (lines 90-116),
restricted to a failure raised at the start of the try block (the
general any-point model is chatHTry below): the body sits inside
try/catch, so the injected failure is caught and reported to the
sender as a generic to-one error notice. -/
def chatHF (st : St) (sid : Nat) (payload : JVal) (now : Nat) (rand : List Char)
    (fault : Bool) : Except Unit (St × List Out) :=
  if fault then .ok (st, [(.toOne sid, .error_message errChatFailed)])
  else .ok (chatH st sid payload now rand)

/-- Fault-injection view of the typing handler (lines 119-124): this
handler has NO try/catch, so an injected failure propagates out of the
handler uncaught. -/
def typingHF (st : St) (sid : Nat) (isTyping : JVal) (fault : Bool) :
    Except Unit (St × List Out) :=
  if fault then .error () else .ok (typingH st sid isTyping)

/-- Fault-injection view of the disconnect handler (lines 127-143): this
handler has NO try/catch, so an injected failure propagates out of the
handler uncaught. -/
def disconnectHF (st : St) (sid : Nat) (fault : Bool) :
    Except Unit (St × List Out) :=
  if fault then .error () else .ok (disconnectH st sid)

/-- Dispatch of one inbound event under fault injection. -/
def stepF (st : St) (e : Ev) (fault : Bool) : Except Unit (St × List Out) :=
  match e.kind with
  | .join raw => joinHF st e.conn raw fault
  | .chat p now rand => chatHF st e.conn p now rand fault
  | .typing t => typingHF st e.conn t fault
  | .disconnect => disconnectHF st e.conn fault

/-- Lines 60-87 with an unexpected internal failure injected at an
ARBITRARY point of the try block.  fp none runs the body unharmed
(agreeing with joinH); fp some k raises the failure after the first k
primitive effects of the body - the registry write of line 69 and the
emissions of lines 73-82, in source order - have completed, so the
catch clause of lines 83-86 reports the generic to-one notice on top
of whatever already happened.  The catch guarantees the handler always
completes with a result, which is why the type is a plain pair: the
failure cannot escape.  Note a failure raised after the users.set of
line 69 is caught with the new entry already registered - there is no
rollback - so the post-fault registry is either the pre-event registry
(k = 0) or the fully updated one (k at least 1), never anything
between. -/
def joinHTry (st : St) (sid : Nat) (raw : JVal) (fp : Option Nat) :
    St × List Out :=
  match fp with
  | none => joinH st sid raw
  | some k =>
    match validateName raw with
    | none =>
      if k = 0 then (st, [(.toOne sid, .error_message errJoinFailed)])
      else (st, [(.toOne sid, .error_message errInvalidName),
                 (.toOne sid, .error_message errJoinFailed)])
    | some name =>
      let st' : St := ⟨mapSet st.users sid name⟩
      if k = 0 then (st, [(.toOne sid, .error_message errJoinFailed)])
      else if k = 1 then (st', [(.toOne sid, .error_message errJoinFailed)])
      else if k = 2 then
        (st', [(.toOthers sid, .system_message .join (joinNotice name)),
               (.toOne sid, .error_message errJoinFailed)])
      else if k = 3 then
        (st', [(.toOthers sid, .system_message .join (joinNotice name)),
               (.toOne sid, .joinedAck name),
               (.toOne sid, .error_message errJoinFailed)])
      else
        (st', [(.toOthers sid, .system_message .join (joinNotice name)),
               (.toOne sid, .joinedAck name),
               (.toAll, .online_count (mapSize st'.users)),
               (.toOne sid, .error_message errJoinFailed)])

/-- Lines 90-116 with an unexpected internal failure injected at an
arbitrary point of the try block, in the style of joinHTry.  The chat
body never mutates the registry, and its only observable effects are a
single emission per path (the to-one precondition notice of line 94 or
the to-all broadcast of line 111; the silent-drop path of line 99 emits
nothing), so the failure is raised either before (k = 0) or after that
emission; the catch of lines 112-115 then appends the generic to-one
notice.  As in joinHTry, the catch makes the handler total. -/
def chatHTry (st : St) (sid : Nat) (payload : JVal) (now : Nat)
    (rand : List Char) (fp : Option Nat) : St × List Out :=
  match fp with
  | none => chatH st sid payload now rand
  | some k =>
    match mapGet st.users sid with
    | none =>
      if k = 0 then (st, [(.toOne sid, .error_message errChatFailed)])
      else (st, [(.toOne sid, .error_message errJoinFirst),
                 (.toOne sid, .error_message errChatFailed)])
    | some user =>
      match validateText (getText payload) with
      | none => (st, [(.toOne sid, .error_message errChatFailed)])
      | some text =>
        if k = 0 then (st, [(.toOne sid, .error_message errChatFailed)])
        else (st, [(.toAll, .chat_message now rand user text),
                   (.toOne sid, .error_message errChatFailed)])

/-- Lines 119-124 with a failure injected at an arbitrary point: the
typing handler has NO try/catch, so wherever the failure is raised it
propagates out of the handler, marked here by the error result (the
escaping exception carries no emissions, and no claim concerns the
emissions a connection may have received before the failure). -/
def typingHTry (st : St) (sid : Nat) (t : JVal) (fp : Option Nat) :
    Except Unit (St × List Out) :=
  match fp with
  | none => .ok (typingH st sid t)
  | some _ => .error ()

/-- Lines 127-143 with a failure injected at an arbitrary point: the
disconnect handler has NO try/catch, so the failure propagates out of
the handler wherever it is raised. -/
def disconnectHTry (st : St) (sid : Nat) (fp : Option Nat) :
    Except Unit (St × List Out) :=
  match fp with
  | none => .ok (disconnectH st sid)
  | some _ => .error ()

/-- Registry well-formedness: socket ids are distinct (no one is counted
twice) and every stored display name is non-empty (only validated names
are stored). -/
def RegOk (m : Registry) : Prop :=
  ((m.map Prod.fst).Nodup) ∧ ∀ p ∈ m, p.2 ≠ []

instance (m : Registry) : Decidable (RegOk m) := by
  unfold RegOk; infer_instance

/-! ### Registry lemmas -/

theorem map_fst_overwrite (m : Registry) (k : Nat) (v : List Char) :
    ((m.map fun p => if p.1 == k then (k, v) else p).map Prod.fst) = m.map Prod.fst := by
  induction m with
  | nil => rfl
  | cons a t ih =>
    simp only [List.map_cons, ih]
    by_cases hk : a.1 = k
    · simp [hk]
    · simp [hk]

theorem mapSet_mem (m : Registry) (k : Nat) (v : List Char) (p : Nat × List Char)
    (hp : p ∈ mapSet m k v) : p = (k, v) ∨ p ∈ m := by
  unfold mapSet at hp
  split at hp
  · obtain ⟨q, hq, rfl⟩ := List.mem_map.1 hp
    by_cases hk : q.1 = k
    · left; simp [hk]
    · right; simpa [hk] using hq
  · rcases List.mem_append.1 hp with h | h
    · right; exact h
    · left; simpa using h

theorem mapSet_nodup (m : Registry) (k : Nat) (v : List Char)
    (h : (m.map Prod.fst).Nodup) : ((mapSet m k v).map Prod.fst).Nodup := by
  unfold mapSet
  split
  · rw [map_fst_overwrite]; exact h
  · rename_i hany
    rw [List.map_append]
    refine List.Nodup.append h (by simp) ?_
    intro a ha hb
    simp only [List.map_cons, List.map_nil, List.mem_singleton] at hb
    subst hb
    obtain ⟨q, hq, rfl⟩ := List.mem_map.1 ha
    exact hany (List.any_eq_true.2 ⟨q, hq, by simp⟩)

theorem mapDelete_nodup (m : Registry) (k : Nat)
    (h : (m.map Prod.fst).Nodup) : ((mapDelete m k).map Prod.fst).Nodup :=
  (List.Sublist.map Prod.fst (List.filter_sublist m)).nodup h

theorem mapDelete_mem (m : Registry) (k : Nat) (p : Nat × List Char)
    (hp : p ∈ mapDelete m k) : p ∈ m :=
  List.mem_of_mem_filter hp

theorem mapDelete_of_get_none (m : Registry) (k : Nat) (h : mapGet m k = none) :
    mapDelete m k = m := by
  unfold mapGet at h
  have hf : m.find? (fun p => p.1 == k) = none := Option.map_eq_none'.1 h
  have hall := List.find?_eq_none.1 hf
  unfold mapDelete
  rw [List.filter_eq_self]
  intro p hp
  simpa using hall p hp

theorem validateName_some_ne_nil (raw : JVal) (name : List Char)
    (h : validateName raw = some name) : name ≠ [] := by
  unfold validateName at h
  split at h
  · exact absurd h (by simp)
  · rename_i hne
    obtain rfl := Option.some.inj h
    exact hne

/-! ### Invariant preservation and the online count -/

theorem regOk_joinH (st : St) (sid : Nat) (raw : JVal) (h : RegOk st.users) :
    RegOk (joinH st sid raw).1.users := by
  unfold joinH
  cases hv : validateName raw with
  | none => exact h
  | some name =>
    refine ⟨mapSet_nodup _ _ _ h.1, ?_⟩
    intro p hp
    rcases mapSet_mem _ _ _ p hp with rfl | hm
    · exact validateName_some_ne_nil raw name hv
    · exact h.2 p hm

theorem regOk_disconnectH (st : St) (sid : Nat) (h : RegOk st.users) :
    RegOk (disconnectH st sid).1.users := by
  have hd : RegOk (mapDelete st.users sid) :=
    ⟨mapDelete_nodup _ _ h.1, fun p hp => h.2 p (mapDelete_mem _ _ p hp)⟩
  unfold disconnectH
  cases mapGet st.users sid with
  | none => exact hd
  | some name =>
    by_cases hne : name.isEmpty
    · simp only [hne, if_pos]; exact hd
    · simp only [hne, if_neg, Bool.false_eq_true, not_false_iff]; exact hd

theorem regOk_step (st : St) (e : Ev) (h : RegOk st.users) :
    RegOk (step st e).1.users := by
  obtain ⟨sid, kind⟩ := e
  cases kind with
  | join raw => exact regOk_joinH st sid raw h
  | chat p now rand =>
    rcases hg : mapGet st.users sid with _ | user
    · simpa [step, chatH, hg] using h
    · rcases ht : validateText (getText p) with _ | text
      · simpa [step, chatH, hg, ht] using h
      · simpa [step, chatH, hg, ht] using h
  | typing t =>
    rcases hg : mapGet st.users sid with _ | user
    · simpa [step, typingH, hg] using h
    · simpa [step, typingH, hg] using h
  | disconnect => exact regOk_disconnectH st sid h

theorem step_online_count (st : St) (e : Ev) (c : Nat)
    (h : (Dest.toAll, Msg.online_count c) ∈ (step st e).2) :
    c = mapSize (step st e).1.users := by
  obtain ⟨sid, kind⟩ := e
  cases kind with
  | join raw =>
    rcases hv : validateName raw with _ | name
    · simp [step, joinH, hv] at h
    · simp [step, joinH, hv] at h ⊢
      omega
  | chat p now rand =>
    rcases hg : mapGet st.users sid with _ | user
    · simp [step, chatH, hg] at h
    · rcases ht : validateText (getText p) with _ | text
      · simp [step, chatH, hg, ht] at h
      · simp [step, chatH, hg, ht] at h
  | typing t =>
    rcases hg : mapGet st.users sid with _ | user
    · simp [step, typingH, hg] at h
    · simp [step, typingH, hg] at h
  | disconnect =>
    rcases hg : mapGet st.users sid with _ | name
    · simp [step, disconnectH, hg] at h
    · by_cases hne : name.isEmpty
      · simp [step, disconnectH, hg, hne] at h
      · simp [step, disconnectH, hg, hne] at h ⊢
        omega

theorem runFrom_ok (es : List Ev) (st : St) (h : RegOk st.users) :
    ∀ p ∈ runFrom st es, RegOk p.1.users ∧
      ∀ c, (Dest.toAll, Msg.online_count c) ∈ p.2 → c = mapSize p.1.users := by
  induction es generalizing st with
  | nil => intro p hp; simp [runFrom] at hp
  | cons e es ih =>
    intro p hp
    simp only [runFrom, List.mem_cons] at hp
    rcases hp with rfl | hp
    · exact ⟨regOk_step st e h, fun c hc => step_online_count st e c hc⟩
    · exact ih (step st e).1 (regOk_step st e h) p hp

/-! ### Structure of the sanitized text -/

/-- No two adjacent characters are both whitespace. -/
abbrev NoTwoWS (l : List Char) : Prop :=
  l.Chain' fun a b => isWS a = false ∨ isWS b = false

theorem collapseWS_length (s : List Char) : (collapseWS s).length ≤ s.length := by
  induction s with
  | nil => simp [collapseWS]
  | cons c t ih =>
    cases t with
    | nil => by_cases h : isWS c = true <;> simp [collapseWS, h]
    | cons d r =>
      by_cases h : (isWS c && isWS d) = true
      · rw [collapseWS, if_pos h]
        exact le_trans ih (by simp)
      · rw [collapseWS, if_neg h]
        simpa using ih

theorem collapseWS_head (d : Char) (r : List Char) (hd : isWS d = false) :
    ∃ rest, collapseWS (d :: r) = d :: rest := by
  cases r with
  | nil => exact ⟨[], by simp [collapseWS, hd]⟩
  | cons e r' =>
    refine ⟨collapseWS (e :: r'), ?_⟩
    rw [collapseWS]
    simp [hd]

theorem collapseWS_noTwo (s : List Char) : NoTwoWS (collapseWS s) := by
  induction s with
  | nil => simp [collapseWS]
  | cons c t ih =>
    cases t with
    | nil => by_cases h : isWS c = true <;> simp [collapseWS, h]
    | cons d r =>
      by_cases h : (isWS c && isWS d) = true
      · rw [collapseWS, if_pos h]
        exact ih
      · rw [collapseWS, if_neg h]
        refine List.chain'_cons'.2 ⟨?_, ih⟩
        intro b hb
        by_cases hc : isWS c = true
        · have hd : isWS d = false := by
            cases hisd : isWS d
            · rfl
            · exact absurd (by simp [hc, hisd]) h
          obtain ⟨rest, hrest⟩ := collapseWS_head d r hd
          rw [hrest] at hb
          simp only [List.head?_cons, Option.mem_def, Option.some.injEq] at hb
          subst hb
          right; exact hd
        · left; simp [hc]

theorem dropWhile_head_false (p : Char → Bool) (l : List Char) (c : Char)
    (rest : List Char) (h : l.dropWhile p = c :: rest) : p c = false := by
  induction l with
  | nil => simp [List.dropWhile] at h
  | cons a t ih =>
    rw [List.dropWhile_cons] at h
    by_cases hp : p a = true
    · rw [if_pos hp] at h; exact ih h
    · rw [if_neg hp] at h
      obtain ⟨rfl, -⟩ := List.cons.inj h
      simpa using hp

theorem trimL_sublist (s : List Char) : (trimL s).Sublist s := by
  unfold trimL
  have h1 : List.Sublist (s.dropWhile fun c => isWS c) s :=
    (List.dropWhile_suffix _).sublist
  have h2 : List.Sublist ((s.dropWhile fun c => isWS c).reverse.dropWhile fun c => isWS c)
      (s.dropWhile fun c => isWS c).reverse :=
    (List.dropWhile_suffix _).sublist
  have h3 := h2.reverse
  rw [List.reverse_reverse] at h3
  exact h3.trans h1

theorem noTwoWS_reverse (l : List Char) (h : NoTwoWS l) : NoTwoWS l.reverse := by
  rw [NoTwoWS, List.chain'_reverse]
  exact List.Chain'.imp (fun a b hab => hab.symm) h

theorem trimL_noTwo (s : List Char) (h : NoTwoWS s) : NoTwoWS (trimL s) := by
  unfold trimL
  apply noTwoWS_reverse
  refine List.Chain'.suffix ?_ (List.dropWhile_suffix _)
  exact noTwoWS_reverse _ (List.Chain'.suffix h (List.dropWhile_suffix _))

theorem trimL_getLast_not_ws (s : List Char) (c : Char)
    (h : (trimL s).getLast? = some c) : isWS c = false := by
  unfold trimL at h
  rw [List.getLast?_reverse] at h
  cases hb : ((s.dropWhile fun c => isWS c).reverse.dropWhile fun c => isWS c) with
  | nil => rw [hb] at h; simp at h
  | cons x xs =>
    rw [hb] at h
    simp only [List.head?_cons, Option.some.injEq] at h
    subst h
    exact dropWhile_head_false _ _ x xs hb

theorem trimL_head_not_ws (s : List Char) (c : Char)
    (h : (trimL s).head? = some c) : isWS c = false := by
  unfold trimL at h
  rw [List.head?_reverse] at h
  have hsuf : ((s.dropWhile fun c => isWS c).reverse.dropWhile fun c => isWS c) <:+
      (s.dropWhile fun c => isWS c).reverse :=
    List.dropWhile_suffix _
  obtain ⟨t, ht⟩ := hsuf
  have hbne : ((s.dropWhile fun c => isWS c).reverse.dropWhile fun c => isWS c) ≠ [] := by
    intro hnil; rw [hnil] at h; simp at h
  have hlast := List.getLast?_append_of_ne_nil t hbne
  rw [ht, List.getLast?_reverse, h] at hlast
  cases ha : (s.dropWhile fun c => isWS c) with
  | nil => rw [ha] at hlast; simp at hlast
  | cons x xs =>
    rw [ha] at hlast
    simp only [List.head?_cons, Option.some.injEq] at hlast
    subst hlast
    exact dropWhile_head_false _ _ x xs ha

theorem sanitize_length (v : JVal) (maxLen : Nat) :
    (sanitize v maxLen).length ≤ maxLen := by
  cases v with
  | str s =>
    have h1 : (trimL (collapseWS (s.take maxLen))).length ≤
        (collapseWS (s.take maxLen)).length :=
      (trimL_sublist _).length_le
    have h2 := collapseWS_length (s.take maxLen)
    have h3 : (s.take maxLen).length ≤ maxLen := by
      simp only [List.length_take]
      exact min_le_left _ _
    exact le_trans h1 (le_trans h2 h3)
  | num n => simp [sanitize]
  | jbool b => simp [sanitize]
  | jnull => simp [sanitize]
  | undefined => simp [sanitize]
  | obj fields => simp [sanitize]

theorem sanitize_noTwo (v : JVal) (maxLen : Nat) : NoTwoWS (sanitize v maxLen) := by
  cases v with
  | str s => exact trimL_noTwo _ (collapseWS_noTwo _)
  | num n => simp [sanitize]
  | jbool b => simp [sanitize]
  | jnull => simp [sanitize]
  | undefined => simp [sanitize]
  | obj fields => simp [sanitize]

theorem sanitize_head_not_ws (v : JVal) (maxLen : Nat) (c : Char)
    (h : (sanitize v maxLen).head? = some c) : isWS c = false := by
  cases v with
  | str s => exact trimL_head_not_ws _ c h
  | num n => simp [sanitize] at h
  | jbool b => simp [sanitize] at h
  | jnull => simp [sanitize] at h
  | undefined => simp [sanitize] at h
  | obj fields => simp [sanitize] at h

theorem sanitize_getLast_not_ws (v : JVal) (maxLen : Nat) (c : Char)
    (h : (sanitize v maxLen).getLast? = some c) : isWS c = false := by
  cases v with
  | str s => exact trimL_getLast_not_ws _ c h
  | num n => simp [sanitize] at h
  | jbool b => simp [sanitize] at h
  | jnull => simp [sanitize] at h
  | undefined => simp [sanitize] at h
  | obj fields => simp [sanitize] at h

/-! ### The claims -/

/-- Claim C1: over every sequence of join, chat_message, typing and
disconnect events processed from the initial empty registry, every
online_count broadcast carries a count equal to the number of
connections currently registered, the registered socket ids are
distinct (no participant is double-counted), and every registered
entry holds a non-empty validated display name, so a connection is
never counted before completing a successful join. -/
theorem claim_c1_online_count_invariant (es : List Ev) (p : St × List Out)
    (hp : p ∈ run es) :
    RegOk p.1.users ∧
    ∀ c, (Dest.toAll, Msg.online_count c) ∈ p.2 → c = mapSize p.1.users :=
  runFrom_ok es ⟨[]⟩ ⟨List.nodup_nil, by simp⟩ p hp

/-- Witness for claim C1 at the one-event trace in which connection 0
joins as Ann. -/
theorem claim_c1_online_count_invariant_witness :
    RegOk ([(0, ("Ann".toList))] : Registry) ∧
    1 = mapSize ([(0, ("Ann".toList))] : Registry) := by
  have h := claim_c1_online_count_invariant
      ([⟨0, .join (JVal.str ("Ann".toList))⟩])
      (⟨[(0, ("Ann".toList))]⟩,
        [(Dest.toOthers 0, Msg.system_message SysKind.join (joinNotice ("Ann".toList))),
         (Dest.toOne 0, Msg.joinedAck ("Ann".toList)),
         (Dest.toAll, Msg.online_count 1)])
      (by decide)
  exact ⟨h.1, h.2 1 (by decide)⟩

/-- Claim C2: when the raw name validates, the join handler stores the
participant under the socket id, emits the join notice to all other
sockets, the joined acknowledgment carrying the normalized name to the
sender only, and finally the refreshed online count to all sockets, in
exactly that order. -/
theorem claim_c2_join_success_sequence (st : St) (sid : Nat) (raw : JVal)
    (name : List Char) (h : validateName raw = some name) :
    joinH st sid raw =
      (⟨mapSet st.users sid name⟩,
       [(Dest.toOthers sid, Msg.system_message SysKind.join (joinNotice name)),
        (Dest.toOne sid, Msg.joinedAck name),
        (Dest.toAll, Msg.online_count (mapSize (mapSet st.users sid name)))]) := by
  simp [joinH, h]

/-- Witness for claim C2: joining with a raw name that normalizes from
two-spaces-Ann-three-spaces to Ann. -/
theorem claim_c2_join_success_sequence_witness :
    validateName (JVal.str ("  Ann   ".toList)) = some ("Ann".toList) ∧
    joinH ⟨[]⟩ 0 (JVal.str ("  Ann   ".toList)) =
      (⟨mapSet ([] : Registry) 0 ("Ann".toList)⟩,
       [(Dest.toOthers 0, Msg.system_message SysKind.join (joinNotice ("Ann".toList))),
        (Dest.toOne 0, Msg.joinedAck ("Ann".toList)),
        (Dest.toAll, Msg.online_count (mapSize (mapSet ([] : Registry) 0 ("Ann".toList))))]) :=
  ⟨by decide,
   claim_c2_join_success_sequence ⟨[]⟩ 0 (JVal.str ("  Ann   ".toList)) ("Ann".toList) (by decide)⟩

/-- Claim C3: disconnecting a joined connection deletes its registry
entry and emits exactly one leave notice to all other sockets followed
by exactly one refreshed online count to all sockets; disconnecting a
never-joined connection leaves the registry unchanged and emits
nothing. -/
theorem claim_c3_disconnect_behavior (st : St) (sid : Nat) (name : List Char) :
    (mapGet st.users sid = some name → name ≠ [] →
      disconnectH st sid =
        (⟨mapDelete st.users sid⟩,
         [(Dest.toOthers sid, Msg.system_message SysKind.leave (leaveNotice name)),
          (Dest.toAll, Msg.online_count (mapSize (mapDelete st.users sid)))])) ∧
    (mapGet st.users sid = none → disconnectH st sid = (st, [])) := by
  constructor
  · intro hg hne
    have hie : name.isEmpty = false := by
      cases hh : name.isEmpty
      · rfl
      · exact absurd (List.isEmpty_iff.1 hh) hne
    simp [disconnectH, hg, hie]
  · intro hg
    have hd := mapDelete_of_get_none st.users sid hg
    simp [disconnectH, hg, hd]

/-- Witness for claim C3: a disconnect of joined connection 0 and a
disconnect of never-joined connection 1, against the same registry. -/
theorem claim_c3_disconnect_behavior_witness :
    disconnectH ⟨[(0, ("Ann".toList))]⟩ 0 =
      (⟨mapDelete ([(0, ("Ann".toList))]) 0⟩,
       [(Dest.toOthers 0, Msg.system_message SysKind.leave (leaveNotice ("Ann".toList))),
        (Dest.toAll, Msg.online_count (mapSize (mapDelete ([(0, ("Ann".toList))]) 0)))]) ∧
    disconnectH ⟨[(0, ("Ann".toList))]⟩ 1 = (⟨[(0, ("Ann".toList))]⟩, []) :=
  ⟨(claim_c3_disconnect_behavior ⟨[(0, ("Ann".toList))]⟩ 0 ("Ann".toList)).1
      (by decide) (by decide),
   (claim_c3_disconnect_behavior ⟨[(0, ("Ann".toList))]⟩ 1 ("Ann".toList)).2 (by decide)⟩

/-- Claim C4: a chat_message from a connection with no registry entry
produces no broadcast, exactly one to-one error notice to the sender,
and leaves the registry unchanged. -/
theorem claim_c4_chat_before_join (st : St) (sid : Nat) (payload : JVal)
    (now : Nat) (rand : List Char) (h : mapGet st.users sid = none) :
    chatH st sid payload now rand =
      (st, [(Dest.toOne sid, Msg.error_message errJoinFirst)]) := by
  simp [chatH, h]

/-- Witness for claim C4: a well-formed chat payload sent before any
join. -/
theorem claim_c4_chat_before_join_witness :
    chatH ⟨[]⟩ 0 (JVal.obj ([(("text".toList), JVal.str ("hi".toList))])) 5 ("abc".toList) =
      (⟨[]⟩, [(Dest.toOne 0, Msg.error_message errJoinFirst)]) :=
  claim_c4_chat_before_join ⟨[]⟩ 0 (JVal.obj ([(("text".toList), JVal.str ("hi".toList))]))
    5 ("abc".toList) (by decide)

/-- Claim C5: for a joined sender, a chat_message whose text is empty
after normalization is silently dropped - no broadcast, no error
notice, registry unchanged - while a chat_message with non-empty
normalized text is broadcast to all sockets including the sender, with
the registered name as author. -/
theorem claim_c5_chat_message_validation (st : St) (sid : Nat) (payload : JVal)
    (now : Nat) (rand : List Char) (name : List Char)
    (hj : mapGet st.users sid = some name) :
    (sanitize (getText payload) 1000 = [] →
      chatH st sid payload now rand = (st, [])) ∧
    (∀ text, sanitize (getText payload) 1000 = text → text ≠ [] →
      chatH st sid payload now rand =
        (st, [(Dest.toAll, Msg.chat_message now rand name text)])) := by
  constructor
  · intro he
    simp [chatH, hj, validateText, he]
  · intro text he hne
    subst he
    simp [chatH, hj, validateText, hne]

/-- Witness for claim C5: a whitespace-only text is dropped and the
text hi is broadcast, both from joined connection 0. -/
theorem claim_c5_chat_message_validation_witness :
    chatH ⟨[(0, ("Ann".toList))]⟩ 0
        (JVal.obj ([(("text".toList), JVal.str ("   ".toList))])) 5 ("abc".toList) =
      (⟨[(0, ("Ann".toList))]⟩, []) ∧
    chatH ⟨[(0, ("Ann".toList))]⟩ 0
        (JVal.obj ([(("text".toList), JVal.str ("hi".toList))])) 5 ("abc".toList) =
      (⟨[(0, ("Ann".toList))]⟩,
       [(Dest.toAll, Msg.chat_message 5 ("abc".toList) ("Ann".toList) ("hi".toList))]) :=
  ⟨(claim_c5_chat_message_validation ⟨[(0, ("Ann".toList))]⟩ 0
      (JVal.obj ([(("text".toList), JVal.str ("   ".toList))])) 5 ("abc".toList)
      ("Ann".toList) (by decide)).1 (by decide),
   (claim_c5_chat_message_validation ⟨[(0, ("Ann".toList))]⟩ 0
      (JVal.obj ([(("text".toList), JVal.str ("hi".toList))])) 5 ("abc".toList)
      ("Ann".toList) (by decide)).2 ("hi".toList) (by decide) (by decide)⟩

/-- Claim C6 is false on the code as stated: sanitize truncates to
maxLen BEFORE collapsing whitespace runs and trimming, whereas the
claim collapses and trims first and truncates the result.  On the
six-character input a-4-spaces-b with maxLen 3 the code produces a
while the claimed order produces a-space-b, and validateName likewise
follows the truncate-first order on a 47-character input. -/
theorem claim_c6_truncation_order_counterexample :
    sanitize (JVal.str ("a    b".toList)) 3 = ("a".toList) ∧
    sanitizeSpecOrder (JVal.str ("a    b".toList)) 3 = ("a b".toList) ∧
    sanitize (JVal.str ("a    b".toList)) 3 ≠ sanitizeSpecOrder (JVal.str ("a    b".toList)) 3 ∧
    validateName (JVal.str ("x                                             y".toList)) =
      some ("x".toList) ∧
    sanitizeSpecOrder (JVal.str ("x                                             y".toList)) 40 =
      ("x y".toList) :=
  ⟨by decide, by decide, by decide, by decide, by decide⟩

/-- Claim C6 (amended): sanitize yields the empty string on any
non-string input; on a string it FIRST truncates to maxLen characters
and then collapses whitespace runs to single spaces and trims, so the
result has at most maxLen characters, no whitespace at either end and
no two adjacent whitespace characters; validateName is exactly this
normalization at maxLen 40, returning null precisely when the
normalized result is empty. -/
theorem claim_c6_sanitize_normalization (v : JVal) (maxLen : Nat) :
    (∀ s, v = JVal.str s → sanitize v maxLen = trimL (collapseWS (s.take maxLen))) ∧
    ((∀ s, v ≠ JVal.str s) → sanitize v maxLen = []) ∧
    (sanitize v maxLen).length ≤ maxLen ∧
    NoTwoWS (sanitize v maxLen) ∧
    (∀ c, (sanitize v maxLen).head? = some c → isWS c = false) ∧
    (∀ c, (sanitize v maxLen).getLast? = some c → isWS c = false) ∧
    (validateName v = none ↔ sanitize v 40 = []) ∧
    (∀ n, validateName v = some n → n = sanitize v 40) := by
  refine ⟨?_, ?_, sanitize_length v maxLen, sanitize_noTwo v maxLen,
    fun c h => sanitize_head_not_ws v maxLen c h,
    fun c h => sanitize_getLast_not_ws v maxLen c h, ?_, ?_⟩
  · rintro s rfl; rfl
  · intro hns
    cases v with
    | str s => exact absurd rfl (hns s)
    | num n => rfl
    | jbool b => rfl
    | jnull => rfl
    | undefined => rfl
    | obj fields => rfl
  · unfold validateName
    by_cases h : sanitize v 40 = [] <;> simp [h]
  · intro n hn
    unfold validateName at hn
    by_cases h : sanitize v 40 = []
    · rw [if_pos h] at hn; cases hn
    · rw [if_neg h] at hn; exact (Option.some.inj hn).symm

/-- Witness for the amended claim C6 at the spec example name and at a
numeric (non-string) input. -/
theorem claim_c6_sanitize_normalization_witness :
    sanitize (JVal.str ("  Ann   ".toList)) 40 =
      trimL (collapseWS (("  Ann   ".toList).take 40)) ∧
    sanitize (JVal.num 7) 40 = [] ∧
    ("Ann".toList) = sanitize (JVal.str ("  Ann   ".toList)) 40 :=
  ⟨(claim_c6_sanitize_normalization (JVal.str ("  Ann   ".toList)) 40).1
      ("  Ann   ".toList) rfl,
   (claim_c6_sanitize_normalization (JVal.num 7) 40).2.1 (fun s h => JVal.noConfusion h),
   (claim_c6_sanitize_normalization (JVal.str ("  Ann   ".toList)) 40).2.2.2.2.2.2.2
      ("Ann".toList) (by decide)⟩

/-- Claim C7: a typing event from a non-joined connection is ignored
silently - no broadcast and no error notice - while a typing event
from a joined connection produces exactly one relay, to all sockets
including the sender, carrying the registered name and the coerced
typing state. -/
theorem claim_c7_typing_relay (st : St) (sid : Nat) (t : JVal) :
    (mapGet st.users sid = none → typingH st sid t = (st, [])) ∧
    (∀ name, mapGet st.users sid = some name →
      typingH st sid t = (st, [(Dest.toAll, Msg.typing name (truthy t) sid)])) := by
  constructor
  · intro h; simp [typingH, h]
  · intro name h; simp [typingH, h]

/-- Witness for claim C7: typing before join is dropped; typing by the
joined connection 0 is relayed once to all sockets. -/
theorem claim_c7_typing_relay_witness :
    typingH ⟨[]⟩ 0 (JVal.jbool true) = (⟨[]⟩, []) ∧
    typingH ⟨[(0, ("Ann".toList))]⟩ 0 (JVal.jbool true) =
      (⟨[(0, ("Ann".toList))]⟩, [(Dest.toAll, Msg.typing ("Ann".toList) true 0)]) :=
  ⟨(claim_c7_typing_relay ⟨[]⟩ 0 (JVal.jbool true)).1 (by decide),
   (claim_c7_typing_relay ⟨[(0, ("Ann".toList))]⟩ 0 (JVal.jbool true)).2
      ("Ann".toList) (by decide)⟩

/-- Claim C8 is false on the code: only the join and chat_message
handlers wrap their bodies in try/catch.  The typing handler (lines
119-124) has no catch boundary, so an unexpected internal failure
raised while handling a typing event from the joined connection 0
propagates out of the handler instead of being caught, logged and
reported to the offending connection. -/
theorem claim_c8_uncaught_fault_counterexample :
    stepF ⟨[(0, ("Ann".toList))]⟩ ⟨0, .typing (JVal.jbool true)⟩ true =
      Except.error () := rfl

/-- Claim C8 (amended): for the join and chat_message handlers, whose
bodies sit inside try/catch, an unexpected internal failure raised at
ANY point of the body is caught at the handler boundary and reported
to the offending connection as a final generic to-one error notice,
never escaping the handler, and the Presence Registry is never left
partially mutated for the event: after a caught failure it is either
exactly the pre-event registry or exactly the fully updated one (for
chat_message always the former, since that handler never writes the
registry).  The typing and disconnect handlers have no try/catch, so a
failure raised there propagates out of the handler uncaught. -/
theorem claim_c8_fault_boundaries (st : St) (sid : Nat) (raw payload t : JVal)
    (now : Nat) (rand : List Char) (k : Nat) :
    ((joinHTry st sid raw (some k)).2.getLast? =
        some (Dest.toOne sid, Msg.error_message errJoinFailed) ∧
      ((joinHTry st sid raw (some k)).1 = st ∨
        (joinHTry st sid raw (some k)).1 = (joinH st sid raw).1)) ∧
    ((chatHTry st sid payload now rand (some k)).2.getLast? =
        some (Dest.toOne sid, Msg.error_message errChatFailed) ∧
      (chatHTry st sid payload now rand (some k)).1 = st) ∧
    typingHTry st sid t (some k) = Except.error () ∧
    disconnectHTry st sid (some k) = Except.error () := by
  refine ⟨⟨?_, ?_⟩, ⟨?_, ?_⟩, rfl, rfl⟩
  · rcases hv : validateName raw with _ | name
    · by_cases hk : k = 0 <;> simp [joinHTry, hv, hk]
    · rcases k with _ | _ | _ | _ | k <;> simp [joinHTry, hv]
  · rcases hv : validateName raw with _ | name
    · by_cases hk : k = 0 <;> simp [joinHTry, hv, hk]
    · rcases k with _ | _ | _ | _ | k <;>
        simp [joinHTry, joinH, hv]
  · rcases hg : mapGet st.users sid with _ | user
    · by_cases hk : k = 0 <;> simp [chatHTry, hg, hk]
    · rcases ht : validateText (getText payload) with _ | text
      · simp [chatHTry, hg, ht]
      · by_cases hk : k = 0 <;> simp [chatHTry, hg, ht, hk]
  · rcases hg : mapGet st.users sid with _ | user
    · by_cases hk : k = 0 <;> simp [chatHTry, hg, hk]
    · rcases ht : validateText (getText payload) with _ | text
      · simp [chatHTry, hg, ht]
      · by_cases hk : k = 0 <;> simp [chatHTry, hg, ht, hk]

/-- Claim C9: whenever handling an event completes (fault-free paths
with fault false, caught-fault paths with fault true), every
error_message among the emissions - invalid name on join, chat before
join, or a caught internal fault - is addressed to exactly the
offending connection; no error notice is ever broadcast or sent to
anyone else. -/
theorem claim_c9_errors_are_to_one (st : St) (e : Ev) (fault : Bool)
    (res : St × List Out) (h : stepF st e fault = Except.ok res) :
    ∀ dst t, (dst, Msg.error_message t) ∈ res.2 → dst = Dest.toOne e.conn := by
  obtain ⟨sid, kind⟩ := e
  intro dst t hm
  cases fault with
  | true =>
    cases kind with
    | join raw =>
      simp only [stepF, joinHF, if_true, Except.ok.injEq] at h
      subst h
      simp only [List.mem_cons, List.not_mem_nil, or_false, Prod.mk.injEq] at hm
      exact hm.1
    | chat p now rand =>
      simp only [stepF, chatHF, if_true, Except.ok.injEq] at h
      subst h
      simp only [List.mem_cons, List.not_mem_nil, or_false, Prod.mk.injEq] at hm
      exact hm.1
    | typing t' => simp [stepF, typingHF] at h
    | disconnect => simp [stepF, disconnectHF] at h
  | false =>
    cases kind with
    | join raw =>
      rcases hv : validateName raw with _ | name
      · simp only [stepF, joinHF, if_false, joinH, hv, Bool.false_eq_true,
          Except.ok.injEq] at h
        subst h
        simp only [List.mem_cons, List.not_mem_nil, or_false, Prod.mk.injEq] at hm
        exact hm.1
      · simp only [stepF, joinHF, if_false, joinH, hv, Bool.false_eq_true,
          Except.ok.injEq] at h
        subst h
        simp at hm
    | chat p now rand =>
      rcases hg : mapGet st.users sid with _ | user
      · simp only [stepF, chatHF, if_false, chatH, hg, Bool.false_eq_true,
          Except.ok.injEq] at h
        subst h
        simp only [List.mem_cons, List.not_mem_nil, or_false, Prod.mk.injEq] at hm
        exact hm.1
      · rcases ht : validateText (getText p) with _ | text
        · simp only [stepF, chatHF, if_false, chatH, hg, ht, Bool.false_eq_true,
            Except.ok.injEq] at h
          subst h
          simp at hm
        · simp only [stepF, chatHF, if_false, chatH, hg, ht, Bool.false_eq_true,
            Except.ok.injEq] at h
          subst h
          simp at hm
    | typing t' =>
      rcases hg : mapGet st.users sid with _ | user
      · simp only [stepF, typingHF, if_false, typingH, hg, Bool.false_eq_true,
          Except.ok.injEq] at h
        subst h
        simp at hm
      · simp only [stepF, typingHF, if_false, typingH, hg, Bool.false_eq_true,
          Except.ok.injEq] at h
        subst h
        simp at hm
    | disconnect =>
      rcases hg : mapGet st.users sid with _ | name
      · simp only [stepF, disconnectHF, if_false, disconnectH, hg, Bool.false_eq_true,
          Except.ok.injEq] at h
        subst h
        simp at hm
      · by_cases hie : name.isEmpty = true
        · simp only [stepF, disconnectHF, if_false, disconnectH, hg, hie,
            Bool.false_eq_true, if_true, Except.ok.injEq] at h
          subst h
          simp at hm
        · simp only [stepF, disconnectHF, if_false, disconnectH, hg, hie,
            Bool.false_eq_true, if_true, Except.ok.injEq] at h
          subst h
          simp at hm

/-- Witness for claim C9 at a chat-before-join error on connection 0. -/
theorem claim_c9_errors_are_to_one_witness :
    Dest.toOne 0 = Dest.toOne 0 :=
  claim_c9_errors_are_to_one ⟨[]⟩ ⟨0, .chat JVal.jnull 0 []⟩ false
    (⟨[]⟩, [(Dest.toOne 0, Msg.error_message errJoinFirst)]) rfl
    (Dest.toOne 0) errJoinFirst (by decide)

/-- Claim C10: a chat_message from a joined connection whose payload
does not carry a string text field - null, undefined, a number, a
boolean, a bare string, or an object without a string text field - is
silently dropped like empty text: the optional access never throws
(the embedding is total), nothing is emitted and the registry is
unchanged. -/
theorem claim_c10_nonstring_text_dropped (st : St) (sid : Nat) (payload : JVal)
    (now : Nat) (rand : List Char) (name : List Char)
    (hj : mapGet st.users sid = some name)
    (hp : ∀ s, getText payload ≠ JVal.str s) :
    chatH st sid payload now rand = (st, []) := by
  have hsan : sanitize (getText payload) 1000 = [] := by
    cases hg : getText payload with
    | str s => exact absurd hg (hp s)
    | num n => rfl
    | jbool b => rfl
    | jnull => rfl
    | undefined => rfl
    | obj fields => rfl
  simp [chatH, hj, validateText, hsan]

/-- Witness for claim C10: a numeric payload sent by the joined
connection 0 is dropped without any emission. -/
theorem claim_c10_nonstring_text_dropped_witness :
    chatH ⟨[(0, ("Ann".toList))]⟩ 0 (JVal.num 5) 7 ("abc".toList) =
      (⟨[(0, ("Ann".toList))]⟩, []) :=
  claim_c10_nonstring_text_dropped ⟨[(0, ("Ann".toList))]⟩ 0 (JVal.num 5) 7
    ("abc".toList) ("Ann".toList) (by decide) (fun s h => JVal.noConfusion h)

end Mess
